import Mathlib

/-!
Verification of the Employee Management repository (Express + PostgreSQL server
in `src/unnamed/part_000`, browser client in `src/public/app.js`).

The development shallowly embeds the data model and the operations the claims
touch: server request handlers become pure functions over an explicit database
state, the client view pipeline becomes pure functions over an explicit client
state, and the JavaScript string/array primitives are modelled at the
character-list level (`toLowerCase` as a character-wise lowercase map,
`Array.prototype.sort` — stable since ES2019 — as insertion sort on the
comparator).
-/

namespace EmpMgmt

/-! ## JavaScript string primitives -/

/-- Character-wise model of JS `String.prototype.toLowerCase` (exact on ASCII,
which is all the repository's comparisons rely on). -/
def jsToLower (s : String) : String := ⟨s.data.map Char.toLower⟩

/-- Model of JS `String.prototype.includes`: `q` occurs contiguously in `t`.
`jsIncludes t ""` is `true`, as in JS. -/
def jsIncludes (t q : String) : Bool := decide (q.data <:+: t.data)

/-! ## Client data model (`src/public/app.js`) -/

/-- An employee record as held in the client cache (wire shape
`{id, firstName, lastName, email, department, salary}`). -/
structure Emp where
  id : String
  firstName : String
  lastName : String
  email : String
  department : String
  salary : Int
deriving DecidableEq, Repr

/-- The filter predicate of `applyFilters` (app.js lines 251-260): the search
query has already been lowercased by the caller, fields are lowercased before
the substring test, and the department filter is an exact match unless it is
`"all"`. -/
def empMatches (searchQuery dept : String) (e : Emp) : Bool :=
  ((searchQuery == "")
      || jsIncludes (jsToLower (e.firstName ++ " " ++ e.lastName)) searchQuery
      || jsIncludes (jsToLower e.email) searchQuery
      || jsIncludes (jsToLower e.department) searchQuery)
    && ((dept == "all") || (e.department == dept))

/-- The filtering step of `applyFilters` (app.js lines 248-260): the raw search
input is lowercased once, then the cache is filtered. -/
def filterEmployees (searchText dept : String) (l : List Emp) : List Emp :=
  l.filter (empMatches (jsToLower searchText) dept)

/-- Case-insensitive substring, as the specification words it: the lowercased
needle occurs in the lowercased haystack. -/
def ciSubstr (q t : String) : Prop := (jsToLower q).data <:+: (jsToLower t).data

instance (q t : String) : Decidable (ciSubstr q t) := by
  unfold ciSubstr; infer_instance

/-- The filter predicate as the specification words it (spec §4.3): the search
text is empty, or a case-insensitive substring of the full name, the email, or
the department; and the department filter is `"all"` or an exact match. -/
def specFilterMatch (searchText dept : String) (e : Emp) : Prop :=
  (searchText = ""
      ∨ ciSubstr searchText (e.firstName ++ " " ++ e.lastName)
      ∨ ciSubstr searchText e.email
      ∨ ciSubstr searchText e.department)
    ∧ (dept = "all" ∨ e.department = dept)

theorem jsToLower_eq_empty_iff (s : String) : jsToLower s = "" ↔ s = "" := by
  constructor
  · intro h
    have hd : s.data.map Char.toLower = ([] : List Char) := by
      simpa [jsToLower, String.ext_iff] using h
    have : s.data = [] := List.map_eq_nil_iff.mp hd
    exact String.ext this
  · intro h; subst h; rfl

theorem empMatches_iff_spec (searchText dept : String) (e : Emp) :
    empMatches (jsToLower searchText) dept e = true ↔ specFilterMatch searchText dept e := by
  have hq : ((jsToLower searchText == "") = true) ↔ searchText = "" := by
    simp [jsToLower_eq_empty_iff]
  simp only [empMatches, specFilterMatch, ciSubstr, jsIncludes, Bool.and_eq_true,
    Bool.or_eq_true, decide_eq_true_eq, beq_iff_eq]
  constructor
  · rintro ⟨h₁, h₂⟩
    refine ⟨?_, ?_⟩
    · rcases h₁ with ((h | h) | h) | h
      · exact Or.inl (hq.mp (by simp [h]))
      · exact Or.inr (Or.inl h)
      · exact Or.inr (Or.inr (Or.inl h))
      · exact Or.inr (Or.inr (Or.inr h))
    · exact h₂
  · rintro ⟨h₁, h₂⟩
    refine ⟨?_, h₂⟩
    rcases h₁ with h | h | h | h
    · subst h
      exact Or.inl (Or.inl (Or.inl (by rfl)))
    · exact Or.inl (Or.inl (Or.inr h))
    · exact Or.inl (Or.inr h)
    · exact Or.inr h

/-- Claim C6: For every record set, search text, and department selection, a
record is in the filtered view iff (search empty OR case-insensitive substring
of full name, email, or department) AND (department filter `"all"` OR exact
match); with department `"Engineering"` and empty search the view is exactly
the records whose department equals `"Engineering"`. -/
theorem c6_filter_predicate (searchText dept : String) (l : List Emp) (e : Emp) :
    (e ∈ filterEmployees searchText dept l ↔ e ∈ l ∧ specFilterMatch searchText dept e)
    ∧ filterEmployees "" "Engineering" l
        = l.filter (fun e => e.department == "Engineering") := by
  constructor
  · rw [filterEmployees, List.mem_filter, empMatches_iff_spec]
  · unfold filterEmployees
    apply List.filter_congr
    intro x _
    have hl : jsToLower "" = "" := rfl
    rw [hl]
    simp [empMatches]

/-! ## Sorting (`sortEmployees`, app.js lines 281-300) -/

/-- The sort keys reachable from the table headers (`data-sort` values). -/
inductive SortField
  | name
  | salary
  | email
  | department
deriving DecidableEq, Repr

/-- The shared tail of the comparator: JS `<`/`>` on two already-computed
values, returning -1/1/0 with the sign flipped for descending order. -/
def strCmp (x y : String) (asc : Bool) : Int :=
  if x < y then (if asc then -1 else 1)
  else if y < x then (if asc then 1 else -1)
  else 0

/-- The comparator passed to `filteredEmployees.sort` (app.js lines 282-299):
`name` compares the lowercased `"firstName lastName"` concatenation, `salary`
compares numbers, every other field compares its lowercased string value.
`asc = true` models `sortDirection === 'asc'`. -/
def jsComparator (f : SortField) (asc : Bool) (a b : Emp) : Int :=
  match f with
  | .salary =>
      if a.salary < b.salary then (if asc then -1 else 1)
      else if b.salary < a.salary then (if asc then 1 else -1)
      else 0
  | .name =>
      strCmp (jsToLower (a.firstName ++ " " ++ a.lastName))
        (jsToLower (b.firstName ++ " " ++ b.lastName)) asc
  | .email => strCmp (jsToLower a.email) (jsToLower b.email) asc
  | .department => strCmp (jsToLower a.department) (jsToLower b.department) asc

/-- The ordering relation induced by the comparator: `a` may stay before `b`
exactly when the comparator does not demand a swap. -/
def cmpRel (f : SortField) (asc : Bool) (a b : Emp) : Prop :=
  jsComparator f asc a b ≤ 0

instance (f : SortField) (asc : Bool) : DecidableRel (cmpRel f asc) := fun a b => by
  unfold cmpRel; infer_instance

/-- Model of `filteredEmployees.sort(comparator)`: `Array.prototype.sort` is
stable (ES2019), and a stable comparator sort is insertion sort on the
comparator's "no swap needed" relation. -/
def sortEmployees (f : SortField) (asc : Bool) (l : List Emp) : List Emp :=
  List.insertionSort (cmpRel f asc) l

theorem cmpRel_salary_asc (a b : Emp) :
    cmpRel .salary true a b ↔ a.salary ≤ b.salary := by
  have h : jsComparator .salary true a b
      = if a.salary < b.salary then -1 else if b.salary < a.salary then 1 else 0 := rfl
  rw [cmpRel, h]
  split_ifs with h1 h2 <;> constructor <;> intro <;> omega

theorem cmpRel_salary_desc (a b : Emp) :
    cmpRel .salary false a b ↔ b.salary ≤ a.salary := by
  have h : jsComparator .salary false a b
      = if a.salary < b.salary then 1 else if b.salary < a.salary then -1 else 0 := rfl
  rw [cmpRel, h]
  split_ifs with h1 h2 <;> constructor <;> intro <;> omega

/-- Stability through one `orderedInsert` step: the sublist of records with a
given salary gains the inserted record at the front exactly when it has that
salary. `hr` says the comparator only skips over records with a different
salary key. -/
theorem filter_orderedInsert_key (r : Emp → Emp → Prop) [DecidableRel r] (k : Int)
    (hr : ∀ a y : Emp, ¬ r a y → y.salary ≠ a.salary) (a : Emp) (s : List Emp) :
    (List.orderedInsert r a s).filter (fun e => e.salary == k)
      = ((a :: s).filter (fun e => e.salary == k)) := by
  set p : Emp → Bool := fun e => e.salary == k with hp
  set q : Emp → Bool := fun b => decide ¬ r a b with hq
  have hsplit := List.takeWhile_append_dropWhile q s
  rw [List.orderedInsert_eq_take_drop, List.filter_append]
  by_cases hak : p a = true
  · have htW : (s.takeWhile q).filter p = [] := by
      rw [List.filter_eq_nil_iff]
      intro x hx
      have hqx := List.mem_takeWhile_imp hx
      have hne : x.salary ≠ a.salary := hr a x (by simpa [hq] using hqx)
      have hak' : a.salary = k := by simpa [hp] using hak
      simp [hp, hak' ▸ hne]
    rw [htW, List.filter_cons_of_pos hak, List.filter_cons_of_pos hak]
    have : (s.takeWhile q).filter p ++ (s.dropWhile q).filter p = s.filter p := by
      rw [← List.filter_append, hsplit]
    rw [htW] at this
    simp only [List.nil_append] at this ⊢
    rw [this]
  · have hak' : p a = false := by simpa using hak
    rw [List.filter_cons_of_neg (by simp [hak']), List.filter_cons_of_neg (by simp [hak']),
      ← List.filter_append, hsplit]

/-- Stability of the modelled sort: for each salary value, the records with
that salary appear in the sorted output in their original relative order. -/
theorem filter_insertionSort_key (r : Emp → Emp → Prop) [DecidableRel r] (k : Int)
    (hr : ∀ a y : Emp, ¬ r a y → y.salary ≠ a.salary) (l : List Emp) :
    (List.insertionSort r l).filter (fun e => e.salary == k)
      = l.filter (fun e => e.salary == k) := by
  induction l with
  | nil => rfl
  | cons a t ih =>
    rw [List.insertionSort, filter_orderedInsert_key r k hr a _]
    rw [List.filter_cons, List.filter_cons, ih]

theorem cmpRel_salary_asc_total : IsTotal Emp (cmpRel .salary true) :=
  ⟨fun a b => by
    rcases le_total a.salary b.salary with h | h
    · exact Or.inl ((cmpRel_salary_asc a b).mpr h)
    · exact Or.inr ((cmpRel_salary_asc b a).mpr h)⟩

theorem cmpRel_salary_asc_trans : IsTrans Emp (cmpRel .salary true) :=
  ⟨fun a b c hab hbc => (cmpRel_salary_asc a c).mpr
    (le_trans ((cmpRel_salary_asc a b).mp hab) ((cmpRel_salary_asc b c).mp hbc))⟩

/-- The ascending salary sort is sorted by salary. -/
theorem sorted_salary_asc (l : List Emp) :
    List.Pairwise (fun a b : Emp => a.salary ≤ b.salary) (sortEmployees .salary true l) := by
  have h := @List.sorted_insertionSort Emp (cmpRel .salary true) _
    cmpRel_salary_asc_total cmpRel_salary_asc_trans l
  exact h.imp fun hab => (cmpRel_salary_asc _ _).mp hab

/-- For a predicate closed under moving down the chain of a `Pairwise`-ordered
list, `takeWhile` is `filter` and `dropWhile` is the complementary `filter`. -/
theorem takeWhile_eq_filter_of_pairwise {R : Emp → Emp → Prop} {p : Emp → Bool}
    (hp : ∀ x y : Emp, R x y → p y = true → p x = true) :
    ∀ {s : List Emp}, List.Pairwise R s →
      s.takeWhile p = s.filter p ∧ s.dropWhile p = s.filter (fun y => ! p y) := by
  intro s hs
  induction s with
  | nil => exact ⟨rfl, rfl⟩
  | cons a t ih =>
    rcases List.pairwise_cons.mp hs with ⟨ha, ht⟩
    rcases ih ht with ⟨ihT, ihD⟩
    by_cases hpa : p a = true
    · rw [List.takeWhile_cons_of_pos hpa, List.dropWhile_cons_of_pos hpa,
        List.filter_cons_of_pos hpa, ihT, ihD, List.filter_cons_of_neg (by simp [hpa])]
      exact ⟨rfl, rfl⟩
    · have hpa' : p a = false := by simpa using hpa
      have htf : ∀ y ∈ t, p y = false := by
        intro y hy
        by_contra hcon
        have : p y = true := by simpa using hcon
        have := hp a y (ha y hy) this
        simp [this] at hpa'
      rw [List.takeWhile_cons_of_neg (by simp [hpa']),
        List.dropWhile_cons_of_neg (by simp [hpa']),
        List.filter_cons_of_neg (by simp [hpa']),
        List.filter_cons_of_pos (by simp [hpa'])]
      constructor
      · exact (List.filter_eq_nil_iff.mpr (by intro y hy; simp [htf y hy])).symm
      · refine congrArg (a :: ·) ?_
        exact (List.filter_eq_self.mpr (by intro y hy; simp [htf y hy])).symm

/-- Inserting a record with a fresh salary into an ascending-sorted list and
reversing agrees with inserting it with the descending comparator into the
reversed list. -/
theorem reverse_orderedInsert (a : Emp) (s : List Emp)
    (hs : List.Pairwise (fun x y : Emp => x.salary ≤ y.salary) s)
    (hfresh : ∀ y ∈ s, a.salary ≠ y.salary) :
    (List.orderedInsert (cmpRel .salary true) a s).reverse
      = List.orderedInsert (cmpRel .salary false) a s.reverse := by
  have hqA : (fun b => decide ¬ cmpRel .salary true a b)
      = (fun b : Emp => decide (b.salary < a.salary)) := by
    funext b
    rw [decide_eq_decide, cmpRel_salary_asc]
    omega
  have hqD : (fun b => decide ¬ cmpRel .salary false a b)
      = (fun b : Emp => decide (a.salary < b.salary)) := by
    funext b
    rw [decide_eq_decide, cmpRel_salary_desc]
    omega
  have hLt := takeWhile_eq_filter_of_pairwise
    (R := fun x y : Emp => x.salary ≤ y.salary)
    (p := fun b : Emp => decide (b.salary < a.salary))
    (by intro x y hxy hy; simp only [decide_eq_true_eq] at hy ⊢; omega) hs
  have hsRev : List.Pairwise (fun x y : Emp => y.salary ≤ x.salary) s.reverse :=
    List.pairwise_reverse.mpr hs
  have hGt := takeWhile_eq_filter_of_pairwise
    (R := fun x y : Emp => y.salary ≤ x.salary)
    (p := fun b : Emp => decide (a.salary < b.salary))
    (by intro x y hxy hy; simp only [decide_eq_true_eq] at hy ⊢; omega) hsRev
  rw [List.orderedInsert_eq_take_drop, List.orderedInsert_eq_take_drop, hqA, hqD,
    hLt.1, hLt.2, hGt.1, hGt.2, List.filter_reverse, List.filter_reverse]
  have hcongr₁ : s.filter (fun b : Emp => decide (a.salary < b.salary))
      = s.filter (fun y : Emp => ! decide (y.salary < a.salary)) := by
    apply List.filter_congr
    intro x hx
    have hne := hfresh x hx
    rw [← decide_not]
    exact decide_eq_decide.mpr (by constructor <;> intro <;> omega)
  have hcongr₂ : s.filter (fun y : Emp => ! decide (a.salary < y.salary))
      = s.filter (fun b : Emp => decide (b.salary < a.salary)) := by
    apply List.filter_congr
    intro x hx
    have hne := hfresh x hx
    rw [← decide_not]
    exact decide_eq_decide.mpr (by constructor <;> intro <;> omega)
  rw [hcongr₁, hcongr₂]
  simp [List.reverse_append]

/-- Descending salary sort equals the reverse of the ascending one when all
salaries are pairwise distinct. -/
theorem sortSalary_desc_eq_reverse_asc (l : List Emp)
    (hdist : List.Pairwise (fun a b : Emp => a.salary ≠ b.salary) l) :
    sortEmployees .salary false l = (sortEmployees .salary true l).reverse := by
  induction l with
  | nil => rfl
  | cons a t ih =>
    rcases List.pairwise_cons.mp hdist with ⟨ha, ht⟩
    show List.orderedInsert (cmpRel .salary false) a
          (List.insertionSort (cmpRel .salary false) t)
        = (List.orderedInsert (cmpRel .salary true) a
            (List.insertionSort (cmpRel .salary true) t)).reverse
    rw [show List.insertionSort (cmpRel .salary false) t
          = sortEmployees .salary false t from rfl, ih ht]
    exact (reverse_orderedInsert a (sortEmployees .salary true t) (sorted_salary_asc t)
      (fun y hy => ha y ((List.mem_insertionSort _).mp hy))).symm

/-- Claim C5 (corrected): Sorting the same dataset by salary ascending and
descending yields exactly reversed orders when all salaries are pairwise
distinct, and the sort is a stable comparator sort: for every salary value the
records carrying it keep their original relative order in both directions
(with tied salaries the two directions therefore do not reverse each other;
see the counterexample). -/
theorem c5_salary_sort_reverse_of_distinct_and_stable (l : List Emp) :
    (List.Pairwise (fun a b : Emp => a.salary ≠ b.salary) l →
      sortEmployees .salary false l = (sortEmployees .salary true l).reverse)
    ∧ ∀ k : Int,
        (sortEmployees .salary true l).filter (fun e => e.salary == k)
          = l.filter (fun e => e.salary == k)
        ∧ (sortEmployees .salary false l).filter (fun e => e.salary == k)
          = l.filter (fun e => e.salary == k) := by
  refine ⟨sortSalary_desc_eq_reverse_asc l, fun k => ⟨?_, ?_⟩⟩
  · exact filter_insertionSort_key _ k
      (fun a y h => by rw [cmpRel_salary_asc] at h; omega) l
  · exact filter_insertionSort_key _ k
      (fun a y h => by rw [cmpRel_salary_desc] at h; omega) l

/-- Two records with tied salaries. -/
def empTieA : Emp := ⟨"e1", "Ann", "Ames", "ann@x.com", "Engineering", 50000⟩

/-- Second record with the same salary as `empTieA`. -/
def empTieB : Emp := ⟨"e2", "Bob", "Best", "bob@x.com", "Engineering", 50000⟩

/-- Claim C5 counterexample: With two records of equal salary the stable sort
keeps their original order in both directions, so the descending order is not
the reverse of the ascending order, refuting the claim for arbitrary
datasets. -/
theorem c5_counterexample :
    sortEmployees .salary false [empTieA, empTieB]
      ≠ (sortEmployees .salary true [empTieA, empTieB]).reverse := by
  decide

/-- Concrete record with salary 40000. -/
def empW1 : Emp := ⟨"w1", "Cara", "Cole", "cara@x.com", "Engineering", 40000⟩

/-- Concrete record with salary 60000. -/
def empW2 : Emp := ⟨"w2", "Dan", "Dorn", "dan@x.com", "Sales", 60000⟩

/-- Claim C5 witness: the amended theorem applied at a concrete two-record
dataset with distinct salaries. -/
theorem c5_witness :
    sortEmployees .salary false [empW1, empW2]
      = (sortEmployees .salary true [empW1, empW2]).reverse
    ∧ (sortEmployees .salary true [empW1, empW2]).filter (fun e => e.salary == 40000)
      = [empW1, empW2].filter (fun e => e.salary == 40000) :=
  ⟨(c5_salary_sort_reverse_of_distinct_and_stable [empW1, empW2]).1 (by decide),
   ((c5_salary_sort_reverse_of_distinct_and_stable [empW1, empW2]).2 40000).1⟩

/-! ## Client view state (module-level variables of app.js, lines 3-8) -/

/-- The module-level client state: the cache, the current filter/sort/page
inputs, and the derived `filteredEmployees` list. -/
structure ClientState where
  employees : List Emp
  searchText : String
  deptFilter : String
  sortField : SortField
  sortAsc : Bool
  rowsPerPage : Nat
  currentPage : Nat
  filtered : List Emp
deriving DecidableEq, Repr

/-- Function `applyFilters` (app.js 247-265): recompute `filteredEmployees` from the
cache and the current search/department inputs, then sort it in place. It
never touches `currentPage`. -/
def applyFilters (st : ClientState) : ClientState :=
  { st with filtered := (sortEmployees st.sortField st.sortAsc
      (filterEmployees st.searchText st.deptFilter st.employees)) }

/-- Function `handleSearch` (237-240): reset to page 1, then re-filter. -/
def handleSearch (q : String) (st : ClientState) : ClientState :=
  applyFilters { st with searchText := q, currentPage := 1 }

/-- Function `handleFilter` (242-245): reset to page 1, then re-filter. -/
def handleFilter (d : String) (st : ClientState) : ClientState :=
  applyFilters { st with deptFilter := d, currentPage := 1 }

/-- Function `handleRowsPerPageChange` (314-319): adopt the new size and reset to
page 1 (the filtered list itself is unchanged). -/
def handleRowsPerPageChange (n : Nat) (st : ClientState) : ClientState :=
  { st with rowsPerPage := n, currentPage := 1 }

/-- Computes `Math.ceil(len / n)` for positive `n`. -/
def ceilPages (len n : Nat) : Nat := (len + n - 1) / n

/-- Function `changePage` (321-328): out-of-range targets are rejected (the function
returns without touching anything), in-range targets become the current page.
When `rowsPerPage = 0`, JS computes `Infinity` (or `NaN`) total pages and the
upper-bound check never rejects. -/
def changePage (p : Nat) (st : ClientState) : ClientState :=
  if p < 1 then st
  else if st.rowsPerPage ≠ 0 ∧ p > ceilPages st.filtered.length st.rowsPerPage then st
  else { st with currentPage := p }

/-- The page slice taken by `renderTable` (342-344):
`slice((currentPage-1)*rowsPerPage, start + rowsPerPage)`. -/
def renderRows (st : ClientState) : List Emp :=
  (st.filtered.drop ((st.currentPage - 1) * st.rowsPerPage)).take st.rowsPerPage

/-- Cache update of a successful add (`addEmployee` 117-119): push the new
record, then `applyFilters` — without touching `currentPage`. -/
def addEmployeeSuccess (e : Emp) (st : ClientState) : ClientState :=
  applyFilters { st with employees := st.employees ++ [e] }

/-- Cache update of a successful delete (`deleteEmployee` 173-174): drop the
record, then `applyFilters` — without touching `currentPage`. -/
def deleteEmployeeSuccess (targetId : String) (st : ClientState) : ClientState :=
  applyFilters { st with employees := st.employees.filter (fun e => ! (e.id == targetId)) }

/-- Total pages as displayed by `updatePagination` (331): at least one page
even when the filtered set is empty. -/
def displayedTotalPages (st : ClientState) : Nat :=
  max 1 (ceilPages st.filtered.length st.rowsPerPage)

/-- The page-range invariant the specification claims:
`1 ≤ currentPage ≤ max 1 ⌈filteredCount / pageSize⌉`. -/
def pageInvariant (st : ClientState) : Prop :=
  1 ≤ st.currentPage ∧ st.currentPage ≤ displayedTotalPages st

instance (st : ClientState) : Decidable (pageInvariant st) := by
  unfold pageInvariant; infer_instance

/-- The cached `filteredEmployees` is the list `applyFilters` would derive
from the current cache and inputs. -/
def viewConsistent (st : ClientState) : Prop :=
  st.filtered = sortEmployees st.sortField st.sortAsc
    (filterEmployees st.searchText st.deptFilter st.employees)

instance (st : ClientState) : Decidable (viewConsistent st) := by
  unfold viewConsistent; infer_instance

theorem length_sortEmployees (f : SortField) (asc : Bool) (l : List Emp) :
    (sortEmployees f asc l).length = l.length :=
  List.length_insertionSort _ _

theorem pageInvariant_of_page_one (st : ClientState) (h : st.currentPage = 1) :
    pageInvariant st :=
  ⟨by omega, by rw [h]; exact Nat.le_max_left 1 _⟩

theorem displayedTotalPages_mono (s t : ClientState) (hr : t.rowsPerPage = s.rowsPerPage)
    (hl : s.filtered.length ≤ t.filtered.length) :
    displayedTotalPages s ≤ displayedTotalPages t := by
  unfold displayedTotalPages ceilPages
  rw [hr]
  exact max_le_max (le_refl 1) (Nat.div_le_div_right (by omega))

/-- Claim C2 (corrected): The page invariant
`1 ≤ currentPage ≤ max 1 ⌈filteredCount/pageSize⌉` is established by search,
department-filter and page-size changes (which reset to page 1) and preserved
by page changes (which reject out-of-range targets as a no-op rather than
clamping them) and by a successful add; with `pageSize = 10` over 25 filtered
records the three pages have sizes `[10, 10, 5]`. Delete (and edit) recompute
the filtered list without resetting or clamping `currentPage` and can leave it
beyond the last page — see the counterexample, which also shows that a request
for page 4 over 25 records is ignored, not clamped to page 3. -/
theorem c2_page_invariant_amended (st : ClientState) :
    (∀ q, pageInvariant (handleSearch q st))
    ∧ (∀ d, pageInvariant (handleFilter d st))
    ∧ (∀ n, pageInvariant (handleRowsPerPageChange n st))
    ∧ (∀ p, 0 < st.rowsPerPage → pageInvariant st → pageInvariant (changePage p st))
    ∧ (∀ e, viewConsistent st → pageInvariant st → pageInvariant (addEmployeeSuccess e st))
    ∧ (st.filtered.length = 25 → st.rowsPerPage = 10 →
        (List.range 3).map (fun i => (renderRows { st with currentPage := i + 1 }).length)
          = [10, 10, 5]) := by
  refine ⟨fun q => pageInvariant_of_page_one _ rfl,
    fun d => pageInvariant_of_page_one _ rfl,
    fun n => pageInvariant_of_page_one _ rfl, ?_, ?_, ?_⟩
  · intro p hrpp hI
    unfold changePage
    split_ifs with h1 h2
    · exact hI
    · exact hI
    · have hle : p ≤ ceilPages st.filtered.length st.rowsPerPage := by
        by_cases hgt : p > ceilPages st.filtered.length st.rowsPerPage
        · exact absurd ⟨by omega, hgt⟩ h2
        · omega
      refine ⟨?_, ?_⟩
      · show 1 ≤ p
        omega
      · show p ≤ max 1 (ceilPages st.filtered.length st.rowsPerPage)
        exact le_trans hle (le_max_right 1 _)
  · intro e hWF hI
    rcases hI with ⟨h1, h2⟩
    have hlen : st.filtered.length
        = (filterEmployees st.searchText st.deptFilter st.employees).length := by
      rw [hWF, length_sortEmployees]
    have hnew : (addEmployeeSuccess e st).filtered.length
        = (filterEmployees st.searchText st.deptFilter st.employees).length
          + (filterEmployees st.searchText st.deptFilter [e]).length := by
      show (sortEmployees _ _ _).length = _
      rw [length_sortEmployees]
      unfold filterEmployees
      rw [List.filter_append, List.length_append]
    have hmono : st.filtered.length ≤ (addEmployeeSuccess e st).filtered.length := by
      omega
    exact ⟨h1, le_trans h2 (displayedTotalPages_mono st _ rfl hmono)⟩
  · intro h25 h10
    have hr : ∀ i : Nat, (renderRows { st with currentPage := i + 1 }).length
        = min st.rowsPerPage (st.filtered.length - i * st.rowsPerPage) := by
      intro i
      show ((st.filtered.drop ((i + 1 - 1) * st.rowsPerPage)).take st.rowsPerPage).length = _
      rw [List.length_take, List.length_drop, Nat.add_sub_cancel]
    rw [show List.range 3 = [0, 1, 2] from rfl]
    simp only [List.map]
    rw [hr 0, hr 1, hr 2, h25, h10]
    decide

/-- Employee record with all text fields derived from an index. -/
def mkEmp (i : Nat) : Emp :=
  { id := toString i, firstName := toString i, lastName := toString i,
    email := toString i, department := "Engineering", salary := (i : Int) }

/-- Builds `n` sample employees with ascending salaries. -/
def sampleEmps (n : Nat) : List Emp := (List.range n).map mkEmp

/-- A consistent state with 25 filtered records, 10 rows per page, page 1. -/
def st25 : ClientState :=
  { employees := sampleEmps 25, searchText := "", deptFilter := "all",
    sortField := .salary, sortAsc := true, rowsPerPage := 10, currentPage := 1,
    filtered := sampleEmps 25 }

/-- A consistent state with 11 filtered records, 10 rows per page, page 2. -/
def st11 : ClientState :=
  { employees := sampleEmps 11, searchText := "", deptFilter := "all",
    sortField := .salary, sortAsc := true, rowsPerPage := 10, currentPage := 2,
    filtered := sampleEmps 11 }

/-- Claim C2 counterexample: A request for page 4 over 25 filtered records at
page 1 leaves the page at 1 — it is not clamped to page 3 — and deleting a
record from an 11-record view on page 2 leaves `currentPage = 2` while only
one page remains, violating the claimed invariant. -/
theorem c2_counterexample :
    ((changePage 4 st25).currentPage = 1 ∧ (changePage 4 st25).currentPage ≠ 3)
    ∧ (pageInvariant st11 ∧ ¬ pageInvariant (deleteEmployeeSuccess "10" st11)) := by
  decide

/-- Claim C2 witness: the amended theorem applied at the concrete 25-record
state. -/
theorem c2_witness :
    pageInvariant (handleSearch "x" st25)
    ∧ pageInvariant (changePage 2 st25)
    ∧ pageInvariant (addEmployeeSuccess (mkEmp 99) st25)
    ∧ (List.range 3).map (fun i => (renderRows { st25 with currentPage := i + 1 }).length)
        = [10, 10, 5] :=
  ⟨(c2_page_invariant_amended st25).1 "x",
   (c2_page_invariant_amended st25).2.2.2.1 2 (by decide) (by decide),
   (c2_page_invariant_amended st25).2.2.2.2.1 (mkEmp 99) (by decide) (by decide),
   (c2_page_invariant_amended st25).2.2.2.2.2 (by decide) (by decide)⟩

/-- Claim C10: A page-change request whose target lies outside
`[1, ceil(filteredCount/pageSize)]` is a no-op: the state — in particular the
current page — and the rendered view are unchanged; the target is not clamped
to the nearest valid page. -/
theorem c10_out_of_range_page_change_is_noop (st : ClientState) (p : Nat)
    (hrpp : 0 < st.rowsPerPage)
    (h : p < 1 ∨ p > ceilPages st.filtered.length st.rowsPerPage) :
    changePage p st = st ∧ renderRows (changePage p st) = renderRows st := by
  have hc : changePage p st = st := by
    unfold changePage
    rcases h with h | h
    · rw [if_pos h]
    · rw [if_neg (by omega), if_pos ⟨by omega, h⟩]
  exact ⟨hc, by rw [hc]⟩

/-- Claim C10 witness: page 4 requested over 25 records with page size 10 (3
pages) leaves the state untouched. -/
theorem c10_witness :
    changePage 4 st25 = st25 ∧ renderRows (changePage 4 st25) = renderRows st25 :=
  c10_out_of_range_page_change_is_noop st25 4 (by decide) (Or.inr (by decide))

/-! ## Client cache mutations (C8) -/

/-- The visible outcome of a mutation fetch: `ok` with the parsed body, or a
failure (a non-ok status or a network error — both reach the `catch` block and
only raise a toast). -/
inductive ApiResult (α : Type)
  | ok (value : α)
  | failure
deriving DecidableEq, Repr

/-- Function `addEmployee` (app.js 99-125): only an ok response pushes the returned
record onto the cache. -/
def addEmployeeCache (cache : List Emp) (resp : ApiResult Emp) : List Emp :=
  match resp with
  | .ok newEmployee => cache ++ [newEmployee]
  | .failure => cache

/-- Function `updateEmployee` (app.js 127-156): an ok response replaces the first
cached record whose id matches; if the id is not cached the cache stays as it
is. -/
def updateEmployeeCache (cache : List Emp) (targetId : String)
    (resp : ApiResult Emp) : List Emp :=
  match resp with
  | .ok updated =>
      match cache.findIdx? (fun emp => emp.id == targetId) with
      | some i => cache.set i updated
      | none => cache
  | .failure => cache

/-- Function `deleteEmployee` (app.js 158-180): an ok (204) response filters the id
out of the cache. -/
def deleteEmployeeCache (cache : List Emp) (targetId : String)
    (resp : ApiResult Unit) : List Emp :=
  match resp with
  | .ok _ => cache.filter (fun emp => ! (emp.id == targetId))
  | .failure => cache

/-- Claim C8: For every add, update and delete, a failure response leaves the
in-memory cache exactly as it was; the cache changes only along the success
branches (add appends the returned record, update rewrites the first matching
id, delete drops the id). -/
theorem c8_cache_unchanged_on_failure (cache : List Emp) (targetId : String) :
    addEmployeeCache cache .failure = cache
    ∧ updateEmployeeCache cache targetId .failure = cache
    ∧ deleteEmployeeCache cache targetId .failure = cache
    ∧ (∀ e, addEmployeeCache cache (.ok e) = cache ++ [e])
    ∧ (∀ u, deleteEmployeeCache cache targetId (.ok u)
        = cache.filter (fun emp => ! (emp.id == targetId))) :=
  ⟨rfl, rfl, rfl, fun _ => rfl, fun _ => rfl⟩

/-! ## CSV export (C7) -/

/-- Model of JS `Array.prototype.join(sep)`. -/
def jsJoin (sep : String) : List String → String
  | [] => ""
  | [a] => a
  | a :: b :: rest => a ++ sep ++ jsJoin sep (b :: rest)

/-- The header line of `exportToCSV` (app.js 385, 394): `headers.join(',')`,
unquoted, with the salary column labelled `Salary (₹)`. -/
def csvHeader : String := "Name,Email,Department,Salary (₹)"

/-- One data row of `exportToCSV` (app.js 386-391, 395): the four cells —
full name, email, department, `salary.toString()` — each wrapped in double
quotes and joined with commas. -/
def csvRow (e : Emp) : String :=
  jsJoin "," [("\"" ++ (e.firstName ++ " " ++ e.lastName) ++ "\""),
    ("\"" ++ e.email ++ "\""), ("\"" ++ e.department ++ "\""),
    ("\"" ++ toString e.salary ++ "\"")]

/-- Function `exportToCSV` (app.js 384-396): the header line followed by one quoted
row per record of the current filtered (unpaged) view, joined with `\n`. -/
def exportToCSV (l : List Emp) : String :=
  jsJoin "\n" (csvHeader :: l.map csvRow)

theorem jsJoin_append_singleton (sep x : String) :
    ∀ (h : String) (xs : List String),
      jsJoin sep ((h :: xs) ++ [x]) = jsJoin sep (h :: xs) ++ sep ++ x := by
  intro h xs
  induction xs generalizing h with
  | nil => rfl
  | cons y ys ih =>
    show h ++ sep ++ jsJoin sep ((y :: ys) ++ [x]) = (h ++ sep ++ jsJoin sep (y :: ys)) ++ sep ++ x
    rw [ih y]
    simp [String.append_assoc]

/-- Claim C7 counterexample: Exporting an empty filtered set yields exactly the
header line, but that line is the unquoted `Name,Email,Department,Salary (₹)`:
its fourth column is labelled `Salary (₹)`, not `Salary`, and the header
fields are not quoted, refuting the claimed column set under either
reading. -/
theorem c7_counterexample :
    exportToCSV [] = "Name,Email,Department,Salary (₹)"
    ∧ "Name,Email,Department,Salary (₹)" ≠ "Name,Email,Department,Salary"
    ∧ "Name,Email,Department,Salary (₹)"
        ≠ "\"Name\",\"Email\",\"Department\",\"Salary\"" :=
  ⟨rfl, by decide, by decide⟩

/-- Claim C7 (corrected): CSV export of the current filtered (unpaged) view
produces the unquoted header line `Name,Email,Department,Salary (₹)` and, for
each appended record, exactly one more line holding the four fields — full
name, email, department, salary — in that order, each wrapped in double
quotes; the empty filtered set produces a header-only file. -/
theorem c7_csv_structure (l : List Emp) (e : Emp) :
    exportToCSV [] = "Name,Email,Department,Salary (₹)"
    ∧ exportToCSV (l ++ [e])
        = exportToCSV l ++ "\n"
          ++ ("\"" ++ (e.firstName ++ " " ++ e.lastName) ++ "\"" ++ ","
            ++ ("\"" ++ e.email ++ "\"") ++ "," ++ ("\"" ++ e.department ++ "\"") ++ ","
            ++ ("\"" ++ toString e.salary ++ "\"")) := by
  refine ⟨rfl, ?_⟩
  have h1 : exportToCSV (l ++ [e]) = jsJoin "\n" ((csvHeader :: l.map csvRow) ++ [csvRow e]) := by
    rw [exportToCSV, List.map_append]
    rfl
  rw [h1, jsJoin_append_singleton]
  show exportToCSV l ++ "\n" ++ csvRow e = _
  simp [csvRow, jsJoin, String.append_assoc]

/-! ## Server data model (`src/unnamed/part_000`) -/

/-- A row of the `employees` table (schema lines 20-33): the base columns
plus the `userId` ownership column added by `ALTER TABLE`. -/
structure EmpRow where
  id : String
  firstName : String
  lastName : String
  email : String
  department : String
  salary : Int
  userId : String
deriving DecidableEq, Repr

/-- A row of the `users` table (lines 57-65); `email` carries a plain
(case-sensitive) `UNIQUE` constraint. `password` holds the bcrypt hash —
hashing is outside this model and the stored value is opaque to every
claim. -/
structure UserRow where
  id : String
  name : String
  email : String
  password : String
deriving DecidableEq, Repr

/-- The PostgreSQL state the handlers touch. -/
structure DB where
  employees : List EmpRow
  users : List UserRow
deriving DecidableEq, Repr

/-- A pair of employee rows collides on the unique index
`employees_user_email_lower_unique (userId, LOWER(email))` (lines 45-54);
`LOWER` is modelled character-wise like `toLowerCase`. -/
def emailCollides (r s : EmpRow) : Prop :=
  r.userId = s.userId ∧ jsToLower r.email = jsToLower s.email

/-- Store-side uniqueness: pairwise distinct primary keys and no pair
violating the unique index. -/
def empRowsOk (rows : List EmpRow) : Prop :=
  List.Pairwise (fun r s => r.id ≠ s.id ∧ ¬ emailCollides r s) rows

/-- Statement `INSERT INTO employees ...`: PostgreSQL raises `unique_violation` (23505,
modelled as `none`) iff the new row collides with an existing one on the
primary key or on the unique index. -/
def insertEmployeeRow (db : DB) (row : EmpRow) : Option DB :=
  if db.employees.any (fun r => r.id == row.id
      || (r.userId == row.userId && jsToLower r.email == jsToLower row.email))
  then none
  else some { db with employees := db.employees ++ [row] }

/-- A POST/PUT request body: `Option` models absent fields, and
`salary : Option Int` models `typeof salary === 'number'` (`none` for missing
or non-numeric values). -/
structure EmpBody where
  firstName : Option String
  lastName : Option String
  email : Option String
  department : Option String
  salary : Option Int
deriving DecidableEq, Repr

/-- JS truthiness of a string field: absent and `""` are falsy. -/
def truthyStr : Option String → Bool
  | none => false
  | some s => ! (s == "")

/-- The validation shared by POST and PUT (lines 205 and 226):
`!firstName || !lastName || !email || !department || typeof salary !== 'number'`
rejects — nothing else; in particular any numeric salary, negatives included,
passes. -/
def validEmpBody (b : EmpBody) : Bool :=
  truthyStr b.firstName && truthyStr b.lastName && truthyStr b.email
    && truthyStr b.department && b.salary.isSome

/-- The row `POST` builds from a validated body (lines 209-212): the
generated id, the body fields, and the caller as owner. -/
def rowOf (uid genId : String) (b : EmpBody) : EmpRow :=
  ⟨genId, b.firstName.getD "", b.lastName.getD "", b.email.getD "",
    b.department.getD "", b.salary.getD 0, uid⟩

/-- Handler `POST /api/employees` (203-221) behind `authRequired`: 400 on invalid
data, 201 with the row inserted under a generated id, 409 when the store
raises `unique_violation`. -/
def postEmployees (db : DB) (uid genId : String) (b : EmpBody) : Nat × DB :=
  if ! validEmpBody b then (400, db)
  else
    match insertEmployeeRow db (rowOf uid genId b) with
    | some db' => (201, db')
    | none => (409, db)

/-- Handler `PUT /api/employees/:id` (223-242): 400 on invalid data, 404 when no row
matches id+owner, 409 when the updated row would collide on the unique index
with another row of the same owner, otherwise 200 with the row rewritten in
place. -/
def putEmployee (db : DB) (uid targetId : String) (b : EmpBody) : Nat × DB :=
  if ! validEmpBody b then (400, db)
  else if ! db.employees.any (fun r => r.id == targetId && r.userId == uid) then (404, db)
  else if db.employees.any (fun r => ! (r.id == targetId) && r.userId == uid
      && jsToLower r.email == jsToLower (b.email.getD "")) then (409, db)
  else (200, { db with employees := (db.employees.map (fun r =>
    if r.id == targetId && r.userId == uid then
      EmpRow.mk r.id (b.firstName.getD "") (b.lastName.getD "") (b.email.getD "")
        (b.department.getD "") (b.salary.getD 0) r.userId
    else r)) })

/-- Claim C4 (corrected): Create and Update accept a body exactly when the four
string fields are present and non-empty and the salary is a number — any
number: the `typeof salary === 'number'` check does not require it to be a
non-negative integer, so a 400 is returned iff a field is missing/empty or the
salary is non-numeric, and a stored salary can be negative (see the
counterexample). -/
theorem c4_validation_amended (b : EmpBody) (db : DB) (uid genId : String) :
    (validEmpBody b = true ↔
      ((∃ s, b.firstName = some s ∧ s ≠ "") ∧ (∃ s, b.lastName = some s ∧ s ≠ "")
        ∧ (∃ s, b.email = some s ∧ s ≠ "") ∧ (∃ s, b.department = some s ∧ s ≠ "")
        ∧ ∃ n : Int, b.salary = some n))
    ∧ ((postEmployees db uid genId b).fst = 400 ↔ validEmpBody b = false)
    ∧ ((putEmployee db uid genId b).fst = 400 ↔ validEmpBody b = false) := by
  have htruthy : ∀ o : Option String, truthyStr o = true ↔ ∃ s, o = some s ∧ s ≠ "" := by
    intro o
    cases o with
    | none => simp [truthyStr]
    | some s => simp [truthyStr]
  refine ⟨?_, ?_, ?_⟩
  · simp only [validEmpBody, Bool.and_eq_true, htruthy, Option.isSome_iff_exists,
      and_assoc]
  · constructor
    · intro h
      cases hv : validEmpBody b
      · rfl
      · exfalso
        unfold postEmployees at h
        rw [hv] at h
        simp only [Bool.not_true] at h
        rw [if_neg (by simp)] at h
        cases hins : insertEmployeeRow db (rowOf uid genId b) with
        | none => rw [hins] at h; simp at h
        | some d' => rw [hins] at h; simp at h
    · intro h
      unfold postEmployees
      rw [h]
      simp
  · constructor
    · intro h
      cases hv : validEmpBody b
      · rfl
      · exfalso
        unfold putEmployee at h
        rw [hv] at h
        simp only [Bool.not_true] at h
        rw [if_neg (by simp)] at h
        split_ifs at h <;> simp at h
    · intro h
      unfold putEmployee
      rw [h]
      simp

/-- The empty database. -/
def db0 : DB := ⟨[], []⟩

/-- A create body whose salary is the negative number -1. -/
def negBody : EmpBody :=
  ⟨some "Jo", some "Doe", some "jo@x.com", some "Engineering", some (-1)⟩

/-- Claim C4 counterexample: A create request with salary `-1` passes validation
(`typeof -1 === 'number'`), is answered 201, and the stored row carries the
negative salary — refuting both "salary only when it is an integer ≥ 0" and
"every employee record stored through the API has a non-negative integer
salary". -/
theorem c4_counterexample :
    (postEmployees db0 "u1" "g1" negBody).fst = 201
    ∧ (postEmployees db0 "u1" "g1" negBody).snd.employees
        = [⟨"g1", "Jo", "Doe", "jo@x.com", "Engineering", -1, "u1"⟩]
    ∧ ((-1 : Int) < 0) := by
  refine ⟨by decide, by decide, by decide⟩

theorem insert_preserves_empRowsOk (d : DB) (row : EmpRow) (d' : DB)
    (hOk : empRowsOk d.employees) (hins : insertEmployeeRow d row = some d') :
    empRowsOk d'.employees := by
  unfold insertEmployeeRow at hins
  by_cases hany : (d.employees.any (fun r => r.id == row.id
      || (r.userId == row.userId && jsToLower r.email == jsToLower row.email))) = true
  · rw [if_pos hany] at hins; cases hins
  · rw [if_neg hany] at hins
    injection hins with hd'
    rw [← hd']
    show empRowsOk (d.employees ++ [row])
    unfold empRowsOk
    rw [List.pairwise_append]
    refine ⟨hOk, by simp, ?_⟩
    intro r hr s hs
    rw [List.mem_singleton] at hs
    have hnot : ¬ ((r.id == row.id || (r.userId == row.userId
        && jsToLower r.email == jsToLower row.email)) = true) := by
      intro hp
      exact hany (List.any_eq_true.mpr ⟨r, hr, hp⟩)
    rw [hs]
    constructor
    · intro heq
      exact hnot (by simp [heq])
    · rintro ⟨hu, he⟩
      exact hnot (by simp [hu, he])

theorem put_preserves_empRowsOk (d : DB) (u i : String) (bb : EmpBody)
    (hOk : empRowsOk d.employees) :
    empRowsOk (putEmployee d u i bb).snd.employees := by
  unfold putEmployee
  split_ifs with h400 h404 h409
  · exact hOk
  · exact hOk
  · exact hOk
  · show empRowsOk (List.map _ d.employees)
    unfold empRowsOk at hOk ⊢
    rw [List.pairwise_map]
    refine hOk.imp_of_mem ?_
    intro a b ha hb hab
    rcases hab with ⟨hid, hcol⟩
    by_cases hPa : (a.id == i && a.userId == u) = true
      <;> by_cases hPb : (b.id == i && b.userId == u) = true
    · rw [Bool.and_eq_true, beq_iff_eq, beq_iff_eq] at hPa hPb
      exact absurd (hPa.1.trans hPb.1.symm) hid
    · rw [if_pos hPa, if_neg hPb]
      rw [Bool.and_eq_true, beq_iff_eq, beq_iff_eq] at hPa
      refine ⟨hid, ?_⟩
      rintro ⟨hu, he⟩
      have hbu : b.userId = u := by
        rw [← hu]; exact hPa.2
      have hbid : b.id ≠ i := by
        intro hbi
        exact hPb (by rw [Bool.and_eq_true, beq_iff_eq, beq_iff_eq]; exact ⟨hbi, hbu⟩)
      refine h409 (List.any_eq_true.mpr ⟨b, hb, ?_⟩)
      rw [Bool.and_eq_true, Bool.and_eq_true]
      refine ⟨⟨by simp [hbid], by simp [hbu]⟩, by simp [he.symm]⟩
    · rw [if_neg hPa, if_pos hPb]
      rw [Bool.and_eq_true, beq_iff_eq, beq_iff_eq] at hPb
      refine ⟨by rw [show (EmpRow.mk b.id (bb.firstName.getD "") (bb.lastName.getD "")
          (bb.email.getD "") (bb.department.getD "") (bb.salary.getD 0) b.userId).id
          = b.id from rfl]; exact hid, ?_⟩
      rintro ⟨hu, he⟩
      have hau : a.userId = u := by
        rw [show (EmpRow.mk b.id (bb.firstName.getD "") (bb.lastName.getD "")
          (bb.email.getD "") (bb.department.getD "") (bb.salary.getD 0) b.userId).userId
          = b.userId from rfl] at hu
        rw [hu]; exact hPb.2
      have haid : a.id ≠ i := by
        intro hai
        exact hPa (by rw [Bool.and_eq_true, beq_iff_eq, beq_iff_eq]; exact ⟨hai, hau⟩)
      refine h409 (List.any_eq_true.mpr ⟨a, ha, ?_⟩)
      rw [Bool.and_eq_true, Bool.and_eq_true]
      exact ⟨⟨by simp [haid], by simp [hau]⟩, by simp [he]⟩
    · rw [if_neg hPa, if_neg hPb]
      exact ⟨hid, hcol⟩

/-- Claim C3: For one owner, of two Create requests whose emails agree up to
letter case exactly one succeeds: the first returns 201 and inserts its row,
the second returns 409 with the store unchanged — the rejection coming from
the store's unique index on `(userId, LOWER(email))`, which both inserts and
updates preserve as an invariant of the employees table. -/
theorem c3_per_user_case_insensitive_uniqueness
    (db : DB) (uid id1 id2 : String) (b1 b2 : EmpBody)
    (hv1 : validEmpBody b1 = true) (hv2 : validEmpBody b2 = true)
    (hmail : jsToLower (b1.email.getD "") = jsToLower (b2.email.getD ""))
    (hfree : ∀ r ∈ db.employees,
      ¬ (r.userId = uid ∧ jsToLower r.email = jsToLower (b1.email.getD "")))
    (hid1 : ∀ r ∈ db.employees, r.id ≠ id1) :
    (postEmployees db uid id1 b1).fst = 201
    ∧ (postEmployees (postEmployees db uid id1 b1).snd uid id2 b2).fst = 409
    ∧ (postEmployees (postEmployees db uid id1 b1).snd uid id2 b2).snd
        = (postEmployees db uid id1 b1).snd
    ∧ (∀ (d : DB) (row : EmpRow) (d' : DB), empRowsOk d.employees →
        insertEmployeeRow d row = some d' → empRowsOk d'.employees)
    ∧ (∀ (d : DB) (u i : String) (bb : EmpBody), empRowsOk d.employees →
        empRowsOk (putEmployee d u i bb).snd.employees) := by
  have hany1 : (db.employees.any (fun r => r.id == (rowOf uid id1 b1).id
      || (r.userId == (rowOf uid id1 b1).userId
        && jsToLower r.email == jsToLower (rowOf uid id1 b1).email))) = false := by
    rw [List.any_eq_false]
    intro r hr hp
    simp only [rowOf, Bool.or_eq_true, Bool.and_eq_true, beq_iff_eq] at hp
    rcases hp with h | ⟨h1, h2⟩
    · exact hid1 r hr h
    · exact hfree r hr ⟨h1, h2⟩
  have hins1 : insertEmployeeRow db (rowOf uid id1 b1)
      = some { db with employees := db.employees ++ [rowOf uid id1 b1] } := by
    unfold insertEmployeeRow
    rw [if_neg (by rw [hany1]; simp)]
  have hpost1 : postEmployees db uid id1 b1
      = (201, { db with employees := db.employees ++ [rowOf uid id1 b1] }) := by
    unfold postEmployees
    rw [hv1]
    simp only [Bool.not_true]
    rw [if_neg (by simp), hins1]
  have hpred : ((rowOf uid id1 b1).id == (rowOf uid id2 b2).id
      || ((rowOf uid id1 b1).userId == (rowOf uid id2 b2).userId
        && jsToLower (rowOf uid id1 b1).email
          == jsToLower (rowOf uid id2 b2).email)) = true := by
    rw [Bool.or_eq_true]
    right
    rw [Bool.and_eq_true]
    exact ⟨beq_iff_eq.mpr rfl, beq_iff_eq.mpr hmail⟩
  have hany2 : (({ db with employees := db.employees ++ [rowOf uid id1 b1] } : DB).employees.any
      (fun r => r.id == (rowOf uid id2 b2).id
        || (r.userId == (rowOf uid id2 b2).userId
          && jsToLower r.email == jsToLower (rowOf uid id2 b2).email))) = true :=
    List.any_eq_true.mpr ⟨rowOf uid id1 b1, by simp, hpred⟩
  have hins2 : insertEmployeeRow { db with employees := db.employees ++ [rowOf uid id1 b1] }
      (rowOf uid id2 b2) = none := by
    unfold insertEmployeeRow
    rw [if_pos hany2]
  have hpost2 : postEmployees { db with employees := db.employees ++ [rowOf uid id1 b1] }
      uid id2 b2 = (409, { db with employees := db.employees ++ [rowOf uid id1 b1] }) := by
    unfold postEmployees
    rw [hv2]
    simp only [Bool.not_true]
    rw [if_neg (by simp), hins2]
  refine ⟨by rw [hpost1], ?_, ?_, insert_preserves_empRowsOk, put_preserves_empRowsOk⟩
  · rw [hpost1]
    show (postEmployees { db with employees := db.employees ++ [rowOf uid id1 b1] }
      uid id2 b2).fst = 409
    rw [hpost2]
  · rw [hpost1]
    show (postEmployees { db with employees := db.employees ++ [rowOf uid id1 b1] }
        uid id2 b2).snd
      = ({ db with employees := db.employees ++ [rowOf uid id1 b1] } : DB)
    rw [hpost2]

/-- A create body for `jane@x.com`. -/
def bodyJane : EmpBody :=
  ⟨some "Jane", some "Doe", some "jane@x.com", some "CSE", some 80000⟩

/-- The same data with the email case-varied to `JANE@X.com`. -/
def bodyJaneCased : EmpBody :=
  ⟨some "Jane", some "Doe", some "JANE@X.com", some "CSE", some 80000⟩

/-- Claim C3 witness: on an empty store, creating `jane@x.com` then
`JANE@X.com` for the same owner yields 201 then 409. -/
theorem c3_witness :
    (postEmployees db0 "u1" "id1" bodyJane).fst = 201
    ∧ (postEmployees (postEmployees db0 "u1" "id1" bodyJane).snd
        "u1" "id2" bodyJaneCased).fst = 409 :=
  ⟨(c3_per_user_case_insensitive_uniqueness db0 "u1" "id1" "id2" bodyJane bodyJaneCased
      (by decide) (by decide) (by decide) (by decide) (by decide)).1,
   (c3_per_user_case_insensitive_uniqueness db0 "u1" "id1" "id2" bodyJane bodyJaneCased
      (by decide) (by decide) (by decide) (by decide) (by decide)).2.1⟩

/-! ## Registration (C9) -/

/-- Handler `POST /api/auth/register` (97-130): require all three fields (JS
truthiness), a password of at least 6 characters, then the **case-sensitive**
existence check `SELECT id FROM users WHERE email = $1`; only then insert.
The stored password is the bcrypt hash; hashing is outside the model and the
stored value is opaque to every claim. -/
def registerUser (db : DB) (genId : String)
    (name email password : Option String) : Nat × DB :=
  if ! (truthyStr name && truthyStr email && truthyStr password) then (400, db)
  else if (password.getD "").length < 6 then (400, db)
  else if db.users.any (fun u => u.email == email.getD "") then (409, db)
  else (201, { db with users := db.users
    ++ [⟨genId, name.getD "", email.getD "", password.getD ""⟩] })

/-- Claim C9: Registration enforces user-email uniqueness only under exact
string equality: two registrations whose emails differ only in letter case
both succeed (201 each) and append two distinct user rows — unlike employee
emails, which are unique case-insensitively per owner. -/
theorem c9_register_email_case_sensitive
    (db : DB) (g1 g2 n1 n2 p1 p2 e1 e2 : String)
    (hn1 : n1 ≠ "") (hn2 : n2 ≠ "")
    (hp1 : 6 ≤ p1.length) (hp2 : 6 ≤ p2.length)
    (he1 : e1 ≠ "") (he2 : e2 ≠ "")
    (hne : e1 ≠ e2) (hlow : jsToLower e1 = jsToLower e2)
    (hfree1 : ∀ u ∈ db.users, u.email ≠ e1)
    (hfree2 : ∀ u ∈ db.users, u.email ≠ e2) :
    (registerUser db g1 (some n1) (some e1) (some p1)).fst = 201
    ∧ (registerUser (registerUser db g1 (some n1) (some e1) (some p1)).snd
        g2 (some n2) (some e2) (some p2)).fst = 201
    ∧ (registerUser (registerUser db g1 (some n1) (some e1) (some p1)).snd
        g2 (some n2) (some e2) (some p2)).snd.users
      = db.users ++ [⟨g1, n1, e1, p1⟩] ++ [⟨g2, n2, e2, p2⟩]
    ∧ (⟨g1, n1, e1, p1⟩ : UserRow) ≠ (⟨g2, n2, e2, p2⟩ : UserRow) := by
  have hreg : ∀ (d : DB) (g n e p : String), n ≠ "" → e ≠ "" → 6 ≤ p.length →
      (∀ u ∈ d.users, u.email ≠ e) →
      registerUser d g (some n) (some e) (some p)
        = (201, { d with users := d.users ++ [⟨g, n, e, p⟩] }) := by
    intro d g n e p hn he hp hfree
    unfold registerUser
    have hplen : p ≠ "" := by
      intro hp0
      rw [hp0] at hp
      simp at hp
    rw [if_neg (by simp [truthyStr, hn, he, hplen])]
    rw [if_neg (by simp; omega)]
    rw [if_neg ?_]
    · rfl
    · intro hany
      rcases List.any_eq_true.mp hany with ⟨u, hu, hpu⟩
      exact hfree u hu (beq_iff_eq.mp hpu)
  have h1 := hreg db g1 n1 e1 p1 hn1 he1 hp1 hfree1
  have hfree2' : ∀ u ∈ (({ db with users := db.users ++ [⟨g1, n1, e1, p1⟩] } : DB)).users,
      u.email ≠ e2 := by
    intro u hu
    rcases List.mem_append.mp hu with h | h
    · exact hfree2 u h
    · rw [List.mem_singleton] at h
      rw [h]
      exact fun hcon => hne hcon
  have h2 := hreg { db with users := db.users ++ [⟨g1, n1, e1, p1⟩] } g2 n2 e2 p2
    hn2 he2 hp2 hfree2'
  refine ⟨by rw [h1], ?_, ?_, ?_⟩
  · rw [h1]
    show (registerUser { db with users := db.users ++ [⟨g1, n1, e1, p1⟩] }
        g2 (some n2) (some e2) (some p2)).fst = 201
    rw [h2]
  · rw [h1]
    show (registerUser { db with users := db.users ++ [⟨g1, n1, e1, p1⟩] }
        g2 (some n2) (some e2) (some p2)).snd.users
      = db.users ++ [⟨g1, n1, e1, p1⟩] ++ [⟨g2, n2, e2, p2⟩]
    rw [h2]
  · intro hcon
    rw [UserRow.mk.injEq] at hcon
    exact hne hcon.2.2.1

/-- Claim C9 witness: on an empty store, registering `a@x.com` and then
`A@x.com` both succeed and create two distinct users. -/
theorem c9_witness :
    (registerUser db0 "g1" (some "Ann") (some "a@x.com") (some "secret1")).fst = 201
    ∧ (registerUser (registerUser db0 "g1" (some "Ann") (some "a@x.com")
          (some "secret1")).snd
        "g2" (some "Ann") (some "A@x.com") (some "secret1")).fst = 201 :=
  ⟨(c9_register_email_case_sensitive db0 "g1" "g2" "Ann" "Ann" "secret1" "secret1"
      "a@x.com" "A@x.com" (by decide) (by decide) (by decide) (by decide) (by decide)
      (by decide) (by decide) (by decide) (by decide) (by decide)).1,
   (c9_register_email_case_sensitive db0 "g1" "g2" "Ann" "Ann" "secret1" "secret1"
      "a@x.com" "A@x.com" (by decide) (by decide) (by decide) (by decide) (by decide)
      (by decide) (by decide) (by decide) (by decide) (by decide)).2.1⟩

/-! ## Session gate (C1) -/

/-- Model of JS `String.prototype.split(sep)` for a one-character separator,
at the character level; `""` splits to `[""]` as in JS. -/
def splitCharAux (c : Char) : List Char → List Char → List (List Char)
  | [], acc => [acc.reverse]
  | x :: rest, acc =>
      if x = c then acc.reverse :: splitCharAux c rest []
      else splitCharAux c rest (x :: acc)

/-- Model of JS `String.prototype.trim` on a character list. -/
def jsTrim (l : List Char) : List Char :=
  ((l.dropWhile Char.isWhitespace).reverse.dropWhile Char.isWhitespace).reverse

/-- One hexadecimal digit. -/
def hexVal (c : Char) : Option Nat :=
  if '0' ≤ c ∧ c ≤ '9' then some (c.toNat - 48)
  else if 'a' ≤ c ∧ c ≤ 'f' then some (c.toNat - 87)
  else if 'A' ≤ c ∧ c ≤ 'F' then some (c.toNat - 55)
  else none

/-- ASCII-level model of `decodeURIComponent`: `%XX` escapes below 0x80
decode to their character; malformed escapes and multi-byte UTF-8 escapes
(`XX ≥ 0x80`) are modelled as the thrown `URIError` (`none`). -/
def percentDecodeChars : List Char → Option (List Char)
  | [] => some []
  | '%' :: h1 :: h2 :: rest =>
      match hexVal h1, hexVal h2 with
      | some a, some b =>
          if 16 * a + b < 128 then
            (percentDecodeChars rest).map (fun t => Char.ofNat (16 * a + b) :: t)
          else none
      | _, _ => none
  | '%' :: _ => none
  | c :: rest => (percentDecodeChars rest).map (fun t => c :: t)

/-- Function `getUserIdFromCookie` (76-85) up to decoding: `(req.headers.cookie || '')`
split on `;`, each part trimmed, the first part starting with `uid=` yields
everything after the prefix; otherwise `null`. -/
def findUidRaw (cookieHeader : Option String) : Option (List Char) :=
  ((splitCharAux ';' (cookieHeader.getD "").data []).map jsTrim).findSome?
    (fun part => if ['u', 'i', 'd', '='].isPrefixOf part then some (part.drop 4) else none)

/-- What the gate decides for a request. -/
inductive AuthOutcome
  | unauthorized
  | serverError
  | authed (uid : String)
deriving DecidableEq, Repr

/-- Middleware `authRequired` (87-94): a missing `uid` part or a falsy decoded value
(`null` or `""`) is answered 401; a `decodeURIComponent` throw escapes to the
framework's 500. The middleware never consults the users table. -/
def authRequired (cookieHeader : Option String) : AuthOutcome :=
  match findUidRaw cookieHeader with
  | none => .unauthorized
  | some raw =>
      match percentDecodeChars raw with
      | none => .serverError
      | some [] => .unauthorized
      | some cs => .authed ⟨cs⟩

/-- Handler `GET /api/employees` (191-201): the gate, then the caller's rows ordered
by `(lastname, firstname)`; the cookie id is never checked against the users
table, so an unknown id is answered 200 with its (empty) list. -/
def listEmployees (db : DB) (cookieHeader : Option String) : Nat × List EmpRow :=
  match authRequired cookieHeader with
  | .unauthorized => (401, [])
  | .serverError => (500, [])
  | .authed uid =>
      (200, List.insertionSort
        (fun a b => a.lastName < b.lastName ∨ (a.lastName = b.lastName ∧ a.firstName ≤ b.firstName))
        (db.employees.filter (fun r => r.userId == uid)))

/-- Handler `GET /api/auth/me` (170-180): the only handler that resolves the cookie id
against the users table; an id that resolves to no user row is answered
401. -/
def authMe (db : DB) (cookieHeader : Option String) : Nat :=
  match authRequired cookieHeader with
  | .unauthorized => 401
  | .serverError => 500
  | .authed uid => if db.users.any (fun u => u.id == uid) then 200 else 401

/-- A store with one user; no user has id `ghost`. -/
def dbGhost : DB := ⟨[], [⟨"alice-id", "Alice", "alice@x.com", "hash"⟩]⟩

/-- Claim C1 counterexample: A request to the employee endpoint whose cookie
carries `uid=ghost`, an id resolving to no user row, is answered 200 (with an
empty list), not 401: the gate never performs the claimed store lookup. -/
theorem c1_counterexample :
    (∀ u ∈ dbGhost.users, u.id ≠ "ghost")
    ∧ (listEmployees dbGhost (some "uid=ghost")).fst = 200
    ∧ (listEmployees dbGhost (some "uid=ghost")).fst ≠ 401 := by
  refine ⟨by decide, by decide, by decide⟩

/-- Claim C1 (corrected): The session gate checks only that the cookie carries a
non-empty `uid` value: a request with no resolvable cookie id is answered
401, but a well-formed non-empty id passes the gate and the employee endpoint
answers 200 whether or not the id resolves to a user row; the store lookup
the specification describes happens only in `GET /api/auth/me`, which answers
401 when the id matches no user. -/
theorem c1_gate_amended (db : DB) (h : Option String) :
    (findUidRaw h = none → (listEmployees db h).fst = 401)
    ∧ (∀ raw cs, findUidRaw h = some raw → percentDecodeChars raw = some cs →
        cs ≠ [] → (listEmployees db h).fst = 200)
    ∧ (∀ uid, authRequired h = .authed uid → (∀ u ∈ db.users, u.id ≠ uid) →
        authMe db h = 401) := by
  refine ⟨?_, ?_, ?_⟩
  · intro hnone
    unfold listEmployees authRequired
    rw [hnone]
  · intro raw cs hraw hdec hne
    have hA : authRequired h = AuthOutcome.authed ⟨cs⟩ := by
      unfold authRequired
      rw [hraw]
      show (match percentDecodeChars raw with
        | none => AuthOutcome.serverError
        | some [] => AuthOutcome.unauthorized
        | some cs => AuthOutcome.authed ⟨cs⟩) = AuthOutcome.authed ⟨cs⟩
      rw [hdec]
      cases cs with
      | nil => exact absurd rfl hne
      | cons c cs' => rfl
    unfold listEmployees
    rw [hA]
  · intro uid hauth hnouser
    have hfalse : (db.users.any fun u => u.id == uid) = false := by
      rw [List.any_eq_false]
      intro u hu hpu
      exact hnouser u hu (beq_iff_eq.mp hpu)
    unfold authMe
    rw [hauth]
    show (if (db.users.any fun u => u.id == uid) = true then 200 else 401) = 401
    rw [hfalse]
    simp

/-- Claim C1 witness: the amended theorem at concrete requests — no cookie is
401, the unresolvable `uid=ghost` cookie is 200 on the employee list but 401
on `/api/auth/me`. -/
theorem c1_witness :
    (listEmployees dbGhost none).fst = 401
    ∧ (listEmployees dbGhost (some "uid=ghost")).fst = 200
    ∧ authMe dbGhost (some "uid=ghost") = 401 :=
  ⟨(c1_gate_amended dbGhost none).1 (by decide),
   (c1_gate_amended dbGhost (some "uid=ghost")).2.1 "ghost".data "ghost".data
     (by decide) (by decide) (by decide),
   (c1_gate_amended dbGhost (some "uid=ghost")).2.2 "ghost"
     (by decide) (by decide)⟩

end EmpMgmt
